import Mathlib

/-!
Verification of the JSON Schema normalizer in `normaliser.py`
(`JSONSchemaNormalizer.normalize` and its helper passes).

The embedding models Python JSON values as the inductive `JVal`
(dicts are insertion-ordered association lists with unique keys, as
produced by `json.load`), Python `==` as `pyEq` (dict comparison is
key-order insensitive, `True == 1` holds), `sorted`/`set` as
`pySorted`/`pySet` (raising `TypeError` on unhashable or mutually
incomparable elements, as CPython does), and each `_normalize_*`
method as a function on keyword maps returning `Except PyErr`, with
`PyErr.typeError` standing for the runtime exceptions the Python code
can raise.  The recursive driver `normalize` carries explicit fuel;
`PyErr.fuelExhausted` is a model artifact never hit at the concrete
inputs used below.
-/

namespace Normalisation

/-- A Python/JSON value.  Objects are insertion-ordered association
lists with unique keys (the shape `json.load` produces). -/
inductive JVal where
  | null
  | bool (b : Bool)
  | num (q : Rat)
  | str (s : String)
  | arr (elems : List JVal)
  | obj (entries : List (String × JVal))

/-- `isinstance(v, bool)`. -/
def JVal.isBool : JVal → Bool
  | .bool _ => true
  | _ => false

/-- `isinstance(v, dict)`. -/
def JVal.isObj : JVal → Bool
  | .obj _ => true
  | _ => false

/-- `isinstance(v, list)`. -/
def JVal.isArr : JVal → Bool
  | .arr _ => true
  | _ => false

/-- `isinstance(v, str)`. -/
def JVal.isStr : JVal → Bool
  | .str _ => true
  | _ => false

/-- Python truthiness (`bool(v)`). -/
def JVal.truthy : JVal → Bool
  | .null => false
  | .bool b => b
  | .num q => q != 0
  | .str s => !s.isEmpty
  | .arr xs => !xs.isEmpty
  | .obj m => !m.isEmpty

/-- Runtime failures of the Python code.  `typeError` stands for the
`TypeError`/`AttributeError`/`KeyError` exceptions the source can
raise; `fuelExhausted` is an artifact of the fueled model only. -/
inductive PyErr where
  | typeError
  | fuelExhausted

/-- A keyword map: the entries of a Python dict, insertion-ordered. -/
abbrev KW := List (String × JVal)

/-- `k in d` for a Python dict. -/
def kwHas (k : String) (m : KW) : Bool := m.any (fun p => p.1 == k)

/-- `d.get(k)` / `d[k]` for a Python dict. -/
def kwGet (k : String) (m : KW) : Option JVal :=
  (m.find? (fun p => p.1 == k)).map (·.2)

/-- `d[k] = v`: updates in place when the key exists (keeping its
position, as CPython does) and appends otherwise. -/
def kwSet (k : String) (v : JVal) (m : KW) : KW :=
  if kwHas k m then m.map (fun p => if p.1 == k then (k, v) else p)
  else m ++ [(k, v)]

/-- `del d[k]`. -/
def kwDel (k : String) (m : KW) : KW := m.filter (fun p => p.1 != k)

mutual

/-- Python `==` on JSON values: dicts compare as key/value maps
irrespective of insertion order, lists element-wise, and `True == 1`,
`False == 0` (bools are ints in Python). -/
def pyEq : JVal → JVal → Bool
  | .null, .null => true
  | .bool a, .bool b => a == b
  | .bool a, .num q => q == (if a then 1 else 0)
  | .num q, .bool b => q == (if b then 1 else 0)
  | .num a, .num b => a == b
  | .str a, .str b => a == b
  | .arr xs, .arr ys => pyEqList xs ys
  | .obj xs, .obj ys => xs.length == ys.length && pyEqEntries xs ys
  | _, _ => false
termination_by structural a => a

def pyEqList : List JVal → List JVal → Bool
  | [], [] => true
  | x :: xs, y :: ys => pyEq x y && pyEqList xs ys
  | _, _ => false
termination_by structural a => a

def pyEqEntries : List (String × JVal) → List (String × JVal) → Bool
  | [], _ => true
  | (k, v) :: rest, ys =>
      (match kwGet k ys with
       | some v' => pyEq v v'
       | none => false) && pyEqEntries rest ys
termination_by structural a => a

end

mutual

/-- Python's ordering on values, as used by `sorted`: numbers (and
bools, which are ints) compare by value, strings lexicographically,
lists lexicographically element-wise; every other pair of values is
incomparable and makes `sorted` raise `TypeError` (`none` here). -/
def pyCompare : JVal → JVal → Option Ordering
  | .num a, .num b => some (compare a b)
  | .bool a, .num b => some (compare (if a then (1 : Rat) else 0) b)
  | .num a, .bool b => some (compare a (if b then (1 : Rat) else 0))
  | .bool a, .bool b =>
      some (compare (if a then (1 : Rat) else 0) (if b then 1 else 0))
  | .str a, .str b => some (compare a b)
  | .arr xs, .arr ys => pyCompareList xs ys
  | _, _ => none
termination_by structural a => a

def pyCompareList : List JVal → List JVal → Option Ordering
  | [], [] => some .eq
  | [], _ :: _ => some .lt
  | _ :: _, [] => some .gt
  | x :: xs, y :: ys =>
      match pyCompare x y with
      | some .eq => pyCompareList xs ys
      | o => o
termination_by structural a => a

end

/-- `a <= b` in the sense of `pyCompare`, defaulting to `true` when
incomparable (sorting guards against that case separately). -/
def pyLe (a b : JVal) : Bool :=
  match pyCompare a b with
  | some .gt => false
  | _ => true

/-- Insert into a sorted list (the stable insertion step). -/
def pyInsert (a : JVal) : List JVal → List JVal
  | [] => [a]
  | b :: bs => if pyLe b a then b :: pyInsert a bs else a :: b :: bs

/-- Stable ascending insertion sort by `pyLe`. -/
def pySortList : List JVal → List JVal
  | [] => []
  | x :: xs => pyInsert x (pySortList xs)

/-- All pairs of elements mutually comparable (so CPython's `sorted`
cannot raise, whatever comparisons its algorithm performs). -/
def pyAllComparable (xs : List JVal) : Bool :=
  match xs with
  | [] => true
  | x :: rest => rest.all (fun y => (pyCompare x y).isSome) && pyAllComparable rest

/-- `sorted(xs)`: `TypeError` when some pair is incomparable. -/
def pySorted (xs : List JVal) : Except PyErr (List JVal) :=
  if pyAllComparable xs then .ok (pySortList xs) else .error .typeError

/-- Is the value hashable (`set` membership requires it)? -/
def pyHashable : JVal → Bool
  | .arr _ => false
  | .obj _ => false
  | _ => true

/-- Deduplicate by Python `==`, keeping first occurrences. -/
def pyDedup : List JVal → List JVal
  | [] => []
  | x :: xs => x :: (pyDedup xs).filter (fun y => !pyEq x y)

/-- `set(xs)` for scalar elements: `TypeError` on unhashable members.
CPython's set iteration order is unspecified; it is modelled as first
occurrence order, which is observable only when a later `sorted` fails
(never the case at the inputs used in the theorems below). -/
def pySet (xs : List JVal) : Except PyErr (List JVal) :=
  if xs.all pyHashable then .ok (pyDedup xs) else .error .typeError

/-- `sorted(set(xs))`, the source's deduplicate-and-sort idiom. -/
def pySortedSet (xs : List JVal) : Except PyErr (List JVal) := do
  pySorted (← pySet xs)

/-- Python `a >= b`: `TypeError` on incomparable operands. -/
def pyGe (a b : JVal) : Except PyErr Bool :=
  match pyCompare a b with
  | some .lt => .ok false
  | some _ => .ok true
  | none => .error .typeError

/-- `list.remove(x)`: drop the first element `== x`. -/
def removeFirstPyEq (x : JVal) : List JVal → List JVal
  | [] => []
  | y :: ys => if pyEq x y then ys else y :: removeFirstPyEq x ys

/-- The `type_values` extraction shared by the constraint passes:
`result.get("type", [])`, wrapping a string as a singleton list; a
mapping iterates as its keys, any other non-list raises. -/
def getTypeVals (m : KW) : Except PyErr (List JVal) :=
  match kwGet "type" m with
  | none => .ok []
  | some (.str s) => .ok [.str s]
  | some (.arr xs) => .ok xs
  | some (.obj kvs) => .ok (kvs.map (fun p => JVal.str p.1))
  | some _ => .error .typeError

/-- `_normalize_boolean_schemas` (source lines 72-82): returns the
schema unchanged in both branches. -/
def normalize_boolean_schemas (m : KW) : KW := m

/-- The metadata keyword set of `_remove_redundant_metadata`. -/
def metadataKeywords : List String :=
  ["title", "description", "$comment", "examples",
   "readOnly", "writeOnly", "deprecated", "$id", "$schema"]

/-- `_remove_redundant_metadata` (source lines 84-95). -/
def remove_redundant_metadata (m : KW) : KW :=
  m.filter (fun p => !metadataKeywords.contains p.1)

/-- The seven-type universe, in the `sorted` order the pass compares
against. -/
def allTypesSorted : List JVal :=
  [.str "array", .str "boolean", .str "integer", .str "null",
   .str "number", .str "object", .str "string"]

/-- `_normalize_type_constraints` (source lines 97-134).  Note that
when `type` equals the full universe the source deletes the key and
then unconditionally reads `result["type"]` again (line 123), raising
`KeyError`. -/
def normalize_type_constraints (m : KW) : Except PyErr KW := do
  if !kwHas "type" m then return m
  let tv0 ← match kwGet "type" m with
    | some (.str s) => pure [JVal.str s]
    | some (.arr xs) => pure xs
    | some (.obj kvs) => pure (kvs.map (fun p => JVal.str p.1))
    | _ => Except.error PyErr.typeError
  let ts ← pySortedSet tv0
  let r := kwSet "type" (.arr ts) m
  let r := if pyEqList ts allTypesSorted then kwDel "type" r else r
  let tlist ← match kwGet "type" r with
    | some (.arr l) => pure l
    | some _ => Except.error PyErr.typeError
    | none => Except.error PyErr.typeError
  let r ←
    if tlist.any (pyEq (.str "integer")) && tlist.any (pyEq (.str "number")) then do
      let r2 := kwSet "type" (.arr (removeFirstPyEq (.str "integer") tlist)) r
      if !kwHas "multipleOf" r2 then pure (kwSet "multipleOf" (.num 1) r2)
      else pure r2
    else pure r
  match kwGet "type" r with
  | some (.arr [t]) => return kwSet "type" t r
  | _ => return r

/-- The draft-04 exclusive-bound step of `_normalize_number_constraints`
for one `(inclusive, exclusive)` keyword pair (source lines 154-165). -/
def exclusiveBoundStep (inc exc : String) (r : KW) : KW :=
  if kwHas inc r && kwHas exc r then
    match kwGet exc r with
    | some (.bool b) =>
        if b then kwDel inc (kwSet exc ((kwGet inc r).getD .null) r)
        else kwDel exc r
    | _ => r
  else r

/-- `_normalize_number_constraints` (source lines 136-177). -/
def normalize_number_constraints (m : KW) : Except PyErr KW := do
  let tv ← getTypeVals m
  if !(tv.any (fun t => pyEq t (.str "number") || pyEq t (.str "integer")))
      && !tv.isEmpty then
    return m
  let r := exclusiveBoundStep "minimum" "exclusiveMinimum" m
  let r := exclusiveBoundStep "maximum" "exclusiveMaximum" r
  if kwHas "multipleOf" r && pyEq ((kwGet "multipleOf" r).getD .null) (.num 1) then
    match kwGet "type" r with
    | some t =>
        let listCase := match t with
          | .arr l => l.any (pyEq (.str "integer")) && !(l.any (pyEq (.str "number")))
          | _ => false
        if pyEq t (.str "integer") || listCase then return kwDel "multipleOf" r
        else return r
    | none => return r
  else return r

/-- The regex metacharacters `_normalize_string_constraints` scans for
(the string `"[]\x7b\x7d()?*.+"` in the source). -/
def patternMetaChars : List Char :=
  ['[', ']', '\x7b', '\x7d', '(', ')', '?', '*', '.', '+']

/-- `_normalize_string_constraints` (source lines 179-211).  A
non-string `pattern` raises `AttributeError` at the `.startswith`
call. -/
def normalize_string_constraints (m : KW) : Except PyErr KW := do
  let tv ← getTypeVals m
  if !(tv.any (pyEq (.str "string"))) && !tv.isEmpty then return m
  let r ←
    if kwHas "minLength" m && kwHas "maxLength" m then do
      let ge ← pyGe ((kwGet "minLength" m).getD .null) ((kwGet "maxLength" m).getD .null)
      if ge then pure (kwDel "maxLength" m) else pure m
    else pure m
  if kwHas "pattern" r then
    match kwGet "pattern" r with
    | some (.str p) =>
        if p.startsWith "^(" && p.endsWith ")$" then
          let inner := (p.drop 2).dropRight 2
          if inner.contains '|' && !(patternMetaChars.any (fun c => inner.contains c)) then
            let values := ((inner.split (· == '|')).filter (fun s => !s.isEmpty)).map JVal.str
            return kwDel "pattern" (kwSet "enum" (.arr values) r)
          else return r
        else return r
    | _ => Except.error PyErr.typeError
  else return r

/-- `_normalize_array_constraints` (source lines 213-283). -/
def normalize_array_constraints (n : JVal → Except PyErr JVal) (m : KW) :
    Except PyErr KW := do
  let tv ← getTypeVals m
  if !(tv.any (pyEq (.str "array"))) && !tv.isEmpty then return m
  let r ←
    match kwGet "items" m with
    | some (.obj io) => do
        let ni ← n (.obj io)
        if pyEq ni (.obj []) then pure (kwDel "items" m)
        else pure (kwSet "items" ni m)
    | some (.arr il) => do
        let nl ← il.mapM n
        let v : JVal := if nl.all (fun x => pyEq x (.obj [])) then .obj [] else .arr nl
        if v.truthy then pure (kwSet "items" v m) else pure (kwDel "items" m)
    | _ => pure m
  let r ←
    match kwGet "additionalItems" r with
    | some (.obj ao) => do
        let na ← n (.obj ao)
        if pyEq na (.obj []) then pure (kwDel "additionalItems" r)
        else pure (kwSet "additionalItems" na r)
    | some (.bool true) => pure (kwDel "additionalItems" r)
    | _ => pure r
  let r ←
    if kwHas "minItems" r && kwHas "maxItems" r then do
      let ma := (kwGet "maxItems" r).getD .null
      let ge ← pyGe ((kwGet "minItems" r).getD .null) ma
      if ge then pure (kwDel "maxItems" (kwSet "minItems" ma r)) else pure r
    else pure r
  let r :=
    if kwHas "minItems" r && pyEq ((kwGet "minItems" r).getD .null) (.num 0) then
      kwDel "minItems" r
    else r
  match kwGet "contains" r with
  | some c => do
      let nc ← n c
      if pyEq nc (.obj []) then return kwDel "contains" r
      else return kwSet "contains" nc r
  | none => return r

/-- The shared `properties`/`patternProperties` step of
`_normalize_object_constraints`: normalize each entry, drop entries
that normalize to `\x7b\x7d`, delete the keyword when nothing remains.
A non-mapping value raises at the `.items()` call. -/
def normSubschemaMap (n : JVal → Except PyErr JVal) (key : String) (m : KW) :
    Except PyErr KW := do
  match kwGet key m with
  | none => pure m
  | some (.obj props) => do
      let out ← props.foldlM (fun (acc : KW) (p : String × JVal) => do
          let nv ← n p.2
          if pyEq nv (.obj []) then pure acc else pure (acc ++ [(p.1, nv)]))
        ([] : KW)
      if out.isEmpty then pure (kwDel key m) else pure (kwSet key (.obj out) m)
  | some _ => Except.error PyErr.typeError

/-- `_normalize_object_constraints` (source lines 285-362).  Note line
351: entries of `required` that are not keys of `properties` are
dropped. -/
def normalize_object_constraints (n : JVal → Except PyErr JVal) (m : KW) :
    Except PyErr KW := do
  let tv ← getTypeVals m
  if !(tv.any (pyEq (.str "object"))) && !tv.isEmpty then return m
  let r ← normSubschemaMap n "properties" m
  let r ← normSubschemaMap n "patternProperties" r
  let r ←
    match kwGet "additionalProperties" r with
    | some (.obj ao) => do
        let na ← n (.obj ao)
        if pyEq na (.obj []) then pure (kwDel "additionalProperties" r)
        else pure (kwSet "additionalProperties" na r)
    | some (.bool true) => pure (kwDel "additionalProperties" r)
    | _ => pure r
  let r ←
    if kwHas "required" r then
      match kwGet "required" r with
      | some (.arr req) => do
          let sortedReq ← pySortedSet req
          let req2 :=
            match kwGet "properties" r with
            | some (.obj props) =>
                sortedReq.filter (fun p =>
                  match p with
                  | .str s => kwHas s props
                  | _ => false)
            | _ => sortedReq
          if req2.isEmpty then pure (kwDel "required" r)
          else pure (kwSet "required" (.arr req2) r)
      | _ => Except.error PyErr.typeError
    else pure r
  if kwHas "minProperties" r && pyEq ((kwGet "minProperties" r).getD .null) (.num 0) then
    return kwDel "minProperties" r
  else return r

/-- Insert an entry into a key-sorted association list. -/
def insertEntryByKey (p : String × JVal) : KW → KW
  | [] => [p]
  | q :: qs => if q.1 ≤ p.1 then q :: insertEntryByKey p qs else p :: q :: qs

/-- Sort an association list by key. -/
def sortEntriesByKey : KW → KW
  | [] => []
  | p :: ps => insertEntryByKey p (sortEntriesByKey ps)

mutual

/-- The observable effect of the `json.dumps(sort_keys=True)` /
`json.loads` round trip the enum pass applies to mapping and sequence
elements: object keys become recursively sorted. -/
def sortKeysRec : JVal → JVal
  | .arr xs => .arr (sortKeysList xs)
  | .obj kvs => .obj (sortEntriesByKey (sortKeysEntries kvs))
  | v => v
termination_by structural a => a

def sortKeysList : List JVal → List JVal
  | [] => []
  | x :: xs => sortKeysRec x :: sortKeysList xs
termination_by structural a => a

def sortKeysEntries : List (String × JVal) → List (String × JVal)
  | [] => []
  | (k, v) :: rest => (k, sortKeysRec v) :: sortKeysEntries rest
termination_by structural a => a

end

/-- Canonicalization of one enum element as performed by the dedup
loop: containers go through the dumps/loads round trip; scalars are
kept (a plain string beginning with a brace or bracket, which the
source would attempt to `json.loads`, is left unchanged — no such
element occurs in the inputs below). -/
def enumItemCanon (v : JVal) : JVal :=
  match v with
  | .arr _ => sortKeysRec v
  | .obj _ => sortKeysRec v
  | v => v

/-- `_normalize_enum_and_const` (source lines 364-417): dedup via a
`set` (hash order unobservable because `sorted` follows when the
elements are comparable; the incomparable fallback keeps first
occurrence order here), singleton to `const`, empty `enum` removed.  A
non-sequence `enum` survives the guarded `try` but raises at the
`len()` call; string- or mapping-valued enums are not modelled. -/
def normalize_enum_and_const (m : KW) : Except PyErr KW := do
  if !kwHas "enum" m then return m
  match kwGet "enum" m with
  | some (.arr xs) =>
      let dd := pyDedup (xs.map enumItemCanon)
      let sortedVals := if pyAllComparable dd then pySortList dd else dd
      let r := kwSet "enum" (.arr sortedVals) m
      let r :=
        match sortedVals with
        | [x] => kwDel "enum" (kwSet "const" x r)
        | _ => r
      if kwHas "enum" r && !(((kwGet "enum" r).getD .null).truthy) then
        return kwDel "enum" r
      else return r
  | some _ => Except.error PyErr.typeError
  | none => return m

/-- The single-branch merge of `_normalize_allOf` (source lines
456-472): copy absent keywords, union `required`/`type` lists, merge
`properties` key-wise wrapping clashes in `allOf`. -/
def mergeAllOfSingle (so : KW) (r : KW) : Except PyErr KW :=
  so.foldlM (fun (acc : KW) (kv : String × JVal) => do
    if !kwHas kv.1 acc then pure (kwSet kv.1 kv.2 acc)
    else if kv.1 == "required" || kv.1 == "type" then
      match kv.2, (kwGet kv.1 acc).getD .null with
      | .arr vl, .arr al => do
          let merged ← pySortedSet (al ++ vl)
          pure (kwSet kv.1 (.arr merged) acc)
      | _, _ => pure acc
    else if kv.1 == "properties" then
      match kv.2, (kwGet kv.1 acc).getD .null with
      | .obj vp, .obj ap =>
          let newProps := vp.foldl (fun (props : KW) (pp : String × JVal) =>
            if !kwHas pp.1 props then props ++ [pp]
            else kwSet pp.1
              (.obj [("allOf", .arr [(kwGet pp.1 props).getD .null, pp.2])]) props) ap
          pure (kwSet kv.1 (.obj newProps) acc)
      | _, _ => pure acc
    else pure acc) r

/-- `_normalize_allOf` (source lines 419-477): normalize branches,
skip branches equal to `\x7b\x7d`, flatten one level of nested
`allOf` (dropping the nested node's sibling keywords, as the source
does), then the empty/single/multi cases.  A normalized branch that is
not a mapping raises at the `"allOf" in normalized` membership test;
string branches (substring semantics) are not modelled. -/
def normalize_allOf (n : JVal → Except PyErr JVal) (m : KW) : Except PyErr KW := do
  if !kwHas "allOf" m then return m
  let branches ← match kwGet "allOf" m with
    | some (.arr bs) => pure bs
    | _ => Except.error PyErr.typeError
  let subs ← branches.foldlM (fun (acc : List JVal) b => do
      let nb ← n b
      if pyEq nb (.obj []) then pure acc
      else match nb with
        | .obj no =>
            if kwHas "allOf" no then
              match kwGet "allOf" no with
              | some (.arr inner) => pure (acc ++ inner)
              | _ => Except.error PyErr.typeError
            else pure (acc ++ [nb])
        | _ => Except.error PyErr.typeError) ([] : List JVal)
  match subs with
  | [] => return kwDel "allOf" m
  | [single] =>
      match single with
      | .obj so => mergeAllOfSingle so (kwDel "allOf" m)
      | _ => Except.error PyErr.typeError
  | _ => return kwSet "allOf" (.arr subs) m

/-- One keyword of `_normalize_anyOf_oneOf` (source lines 489-534).
`.inl` is the early `return \x7b"not": \x7b\x7d\x7d` taken when no
branch survives; `.inr` continues the pass.  Branches that normalize
to `\x7b\x7d` are skipped; a surviving non-mapping branch raises when
merged or const-tested. -/
def processAnyOneOf (n : JVal → Except PyErr JVal) (keyword : String) (m : KW) :
    Except PyErr (Sum KW KW) := do
  if !kwHas keyword m then return .inr m
  let branches ← match kwGet keyword m with
    | some (.arr bs) => pure bs
    | _ => Except.error PyErr.typeError
  let subs ← branches.foldlM (fun (acc : List JVal) b => do
      let nb ← n b
      if pyEq nb (.obj []) then pure acc else pure (acc ++ [nb])) ([] : List JVal)
  match subs with
  | [] => return .inl [("not", JVal.obj [])]
  | [single] =>
      match single with
      | .obj so =>
          return .inr (so.foldl (fun acc kv =>
            if kwHas kv.1 acc then acc else kwSet kv.1 kv.2 acc) (kwDel keyword m))
      | _ => Except.error PyErr.typeError
  | _ =>
      if keyword == "oneOf" then do
        let allConst ← subs.foldlM (fun (acc : Bool) sub => do
            if !acc then pure false
            else match sub with
              | .obj so => pure (kwHas "const" so && so.length == 1)
              | _ => Except.error PyErr.typeError) true
        if allConst then do
          let vals ← subs.mapM (fun sub => do
              match sub with
              | .obj so => pure ((kwGet "const" so).getD JVal.null)
              | _ => Except.error PyErr.typeError)
          return .inr (kwSet "enum" (.arr vals) (kwDel keyword m))
        else return .inr (kwSet keyword (.arr subs) m)
      else return .inr (kwSet keyword (.arr subs) m)

/-- `_normalize_anyOf_oneOf` (source lines 479-536): `anyOf` then
`oneOf`, with the early whole-node `\x7b"not": \x7b\x7d\x7d` return. -/
def normalize_anyOf_oneOf (n : JVal → Except PyErr JVal) (m : KW) :
    Except PyErr KW := do
  match ← processAnyOneOf n "anyOf" m with
  | .inl early => return early
  | .inr r =>
    match ← processAnyOneOf n "oneOf" r with
    | .inl early => return early
    | .inr r2 => return r2

/-- `_normalize_not` (source lines 538-569).  `not \x7b\x7d` replaces
the whole node by `\x7b"not": \x7b\x7d\x7d`; a single-key nested `not`
is unwrapped with its inner keywords merged into the parent.  For a
string-valued normalized subschema the `"not" in subschema` substring
test can never coincide with `len(subschema) == 1`, so the value is
simply stored back. -/
def normalize_not (n : JVal → Except PyErr JVal) (m : KW) : Except PyErr KW := do
  if !kwHas "not" m then return m
  let sub ← n ((kwGet "not" m).getD .null)
  if pyEq sub (.obj []) then return [("not", JVal.obj [])]
  else match sub with
    | .obj so =>
        if kwHas "not" so && so.length == 1 then
          match (kwGet "not" so).getD .null with
          | .obj inner =>
              return inner.foldl (fun acc kv =>
                if kwHas kv.1 acc then acc else kwSet kv.1 kv.2 acc) (kwDel "not" m)
          | _ => Except.error PyErr.typeError
        else return kwSet "not" sub m
    | .str s => return kwSet "not" (.str s) m
    | _ => Except.error PyErr.typeError

/-- `_normalize_if_then_else` (source lines 571-654). -/
def normalize_if_then_else (n : JVal → Except PyErr JVal) (m : KW) :
    Except PyErr KW := do
  let hasIf := kwHas "if" m
  let hasThen := kwHas "then" m
  let hasElse := kwHas "else" m
  if !hasIf then
    let r := if hasThen then kwDel "then" m else m
    return if hasElse then kwDel "else" r else r
  let ni ← n ((kwGet "if" m).getD .null)
  let r := kwSet "if" ni m
  let r ←
    if hasThen then do
      let nt ← n ((kwGet "then" r).getD .null)
      pure (kwSet "then" nt r)
    else pure r
  let r ←
    if hasElse then do
      let ne ← n ((kwGet "else" r).getD .null)
      pure (kwSet "else" ne r)
    else pure r
  let ifv := (kwGet "if" r).getD .null
  if pyEq ifv (.obj []) then
    if hasThen && !hasElse then
      let thenSchema := (kwGet "then" r).getD .null
      let r := kwDel "then" (kwDel "if" r)
      if !kwHas "allOf" r then return kwSet "allOf" (.arr [thenSchema]) r
      else match kwGet "allOf" r with
        | some (.arr l) => return kwSet "allOf" (.arr (l ++ [thenSchema])) r
        | _ => Except.error PyErr.typeError
    else if hasElse && !hasThen then return r
    else if hasThen && hasElse then
      let thenSchema := (kwGet "then" r).getD .null
      let r := kwDel "else" (kwDel "then" (kwDel "if" r))
      match thenSchema with
      | .obj ts =>
          return ts.foldl (fun acc kv =>
            if kwHas kv.1 acc then acc else kwSet kv.1 kv.2 acc) r
      | _ => Except.error PyErr.typeError
    else return r
  else if pyEq ifv (.obj [("not", .obj [])]) then
    if hasThen && !hasElse then
      return kwDel "then" (kwDel "if" r)
    else if hasElse && !hasThen then
      let elseSchema := (kwGet "else" r).getD .null
      let r := kwDel "else" (kwDel "if" r)
      if !kwHas "allOf" r then return kwSet "allOf" (.arr [elseSchema]) r
      else match kwGet "allOf" r with
        | some (.arr l) => return kwSet "allOf" (.arr (l ++ [elseSchema])) r
        | _ => Except.error PyErr.typeError
    else if hasThen && hasElse then
      let elseSchema := (kwGet "else" r).getD .null
      let r := kwDel "else" (kwDel "then" (kwDel "if" r))
      match elseSchema with
      | .obj es =>
          return es.foldl (fun acc kv =>
            if kwHas kv.1 acc then acc else kwSet kv.1 kv.2 acc) r
      | _ => Except.error PyErr.typeError
    else return r
  else return r

/-- `_normalize_dependencies` (source lines 656-688): property-list
entries are deduped and sorted (empty lists dropped), schema entries
normalized (entries equal to `\x7b\x7d` dropped), any other entry
shape silently dropped; the keyword is removed when nothing
remains. -/
def normalize_dependencies (n : JVal → Except PyErr JVal) (m : KW) :
    Except PyErr KW := do
  if !kwHas "dependencies" m then return m
  match kwGet "dependencies" m with
  | some (.obj dm) => do
      let deps ← dm.foldlM (fun (acc : KW) (kv : String × JVal) => do
          match kv.2 with
          | .arr l =>
              if l.isEmpty then pure acc
              else do
                let s ← pySortedSet l
                pure (acc ++ [(kv.1, JVal.arr s)])
          | .obj dobj => do
              let nd ← n (.obj dobj)
              if pyEq nd (.obj []) then pure acc else pure (acc ++ [(kv.1, nd)])
          | _ => pure acc) ([] : KW)
      if deps.isEmpty then return kwDel "dependencies" m
      else return kwSet "dependencies" (.obj deps) m
  | some _ => Except.error PyErr.typeError
  | none => return m

/-- `_normalize_reference_resolution` (source lines 690-699): a
pass-through. -/
def normalize_reference_resolution (m : KW) : KW := m

/-- `_cleanup_empty_keywords` (source lines 701-723). -/
def cleanup_empty_keywords (m : KW) : KW :=
  let arrayKeywords := ["required", "enum", "allOf", "anyOf", "oneOf"]
  let objectKeywords := ["properties", "patternProperties", "dependencies"]
  let step := fun (empties : JVal → Bool) (acc : KW) (k : String) =>
    if kwHas k acc then
      let v := (kwGet k acc).getD .null
      if !v.truthy || empties v then kwDel k acc else acc
    else acc
  let r := arrayKeywords.foldl (step (fun v => pyEq v (.arr []))) m
  objectKeywords.foldl (step (fun v => pyEq v (.obj []))) r

/-- The pass pipeline of `normalize` (source lines 54-68), applied to
a keyword mapping, with `n` standing for the recursive
`self.normalize` calls. -/
def normalizePasses (n : JVal → Except PyErr JVal) (m : KW) : Except PyErr KW := do
  let r := normalize_boolean_schemas m
  let r := remove_redundant_metadata r
  let r ← normalize_type_constraints r
  let r ← normalize_number_constraints r
  let r ← normalize_string_constraints r
  let r ← normalize_array_constraints n r
  let r ← normalize_object_constraints n r
  let r ← normalize_enum_and_const r
  let r ← normalize_allOf n r
  let r ← normalize_anyOf_oneOf n r
  let r ← normalize_not n r
  let r ← normalize_if_then_else n r
  let r ← normalize_dependencies n r
  let r := normalize_reference_resolution r
  return cleanup_empty_keywords r

/-- `JSONSchemaNormalizer.normalize` (source lines 31-70): `True`
becomes `\x7b\x7d`, `False` becomes `\x7b"not": \x7b\x7d\x7d`, any
other non-mapping is returned unchanged, and a mapping goes through
the pass pipeline.  `fuel` bounds the recursion depth of the model;
the source recurses without an explicit bound. -/
def normalize (fuel : Nat) (v : JVal) : Except PyErr JVal :=
  match v, fuel with
  | .bool true, _ => .ok (.obj [])
  | .bool false, _ => .ok (.obj [("not", .obj [])])
  | .obj _, 0 => .error .fuelExhausted
  | .obj m, f + 1 => (normalizePasses (fun s => normalize f s) m).map JVal.obj
  | v, _ => .ok v
termination_by structural fuel

/-- `normalize_schema` (source lines 726-737): delegates to
`JSONSchemaNormalizer.normalize`. -/
def normalize_schema (fuel : Nat) (v : JVal) : Except PyErr JVal :=
  normalize fuel v

/-- Does an instance match one JSON type name?  Booleans are not
numbers (JSON Schema distinguishes them although Python's `bool` is an
`int`), and "integer" means a number with integral value. -/
def typeMatch (s : String) (inst : JVal) : Bool :=
  if s == "null" then inst matches .null
  else if s == "boolean" then inst.isBool
  else if s == "object" then inst.isObj
  else if s == "array" then inst.isArr
  else if s == "string" then inst.isStr
  else if s == "number" then inst matches .num _
  else if s == "integer" then
    match inst with
    | .num q => q.den == 1
    | _ => false
  else false

/-- The `type` keyword: a single name or a union of names. -/
def typeOk (v : JVal) (inst : JVal) : Bool :=
  match v with
  | .str s => typeMatch s inst
  | .arr ts => ts.any (fun t =>
      match t with
      | .str s => typeMatch s inst
      | _ => false)
  | _ => true

mutual

/-- Modelled from the spec: the instance-validation engine (the
equivalence oracle of §6, "a separate instance-validation engine used
only to test equivalence empirically") is an out-of-scope external
collaborator, so acceptance — "the set of instances a schema validates
successfully" (glossary) — is modelled here from the spec's JSON
Schema keyword semantics.  A schema is a boolean leaf or a keyword
mapping whose keywords must all hold; unknown keywords pass through
unmodified (§4.1). -/
def accepts : JVal → JVal → Bool
  | .bool b, _ => b
  | .obj kvs, inst => acceptsEntries kvs inst
  | _, _ => true
termination_by structural a => a

/-- The conjunction over a keyword mapping's entries, with the
per-keyword validation semantics inlined. -/
def acceptsEntries : List (String × JVal) → JVal → Bool
  | [], _ => true
  | (k, v) :: rest, inst =>
      (if k == "type" then typeOk v inst
       else if k == "enum" then
         match v with
         | .arr xs => xs.any (fun e => pyEq inst e)
         | _ => true
       else if k == "const" then pyEq inst v
       else if k == "not" then !(accepts v inst)
       else if k == "allOf" then
         match v with
         | .arr xs => acceptsAll xs inst
         | _ => true
       else if k == "anyOf" then
         match v with
         | .arr xs => acceptsAny xs inst
         | _ => true
       else if k == "oneOf" then
         match v with
         | .arr xs => acceptsCount xs inst == 1
         | _ => true
       else if k == "required" then
         match inst, v with
         | .obj im, .arr ks =>
             ks.all (fun kk =>
               match kk with
               | .str s => kwHas s im
               | _ => false)
         | _, _ => true
       else if k == "properties" then
         match v, inst with
         | .obj props, .obj im => acceptsProps props im
         | _, _ => true
       else if k == "minLength" then
         match inst, v with
         | .str s, .num q => decide (q ≤ (s.length : Rat))
         | _, _ => true
       else if k == "maxLength" then
         match inst, v with
         | .str s, .num q => decide ((s.length : Rat) ≤ q)
         | _, _ => true
       else if k == "minimum" then
         match inst, v with
         | .num i, .num q => decide (q ≤ i)
         | _, _ => true
       else if k == "maximum" then
         match inst, v with
         | .num i, .num q => decide (i ≤ q)
         | _, _ => true
       else if k == "multipleOf" then
         match inst, v with
         | .num i, .num q =>
             if q == 0 then true
             else (i.num * (q.den : Int)) % (q.num * (i.den : Int)) == 0
         | _, _ => true
       else true) && acceptsEntries rest inst
termination_by structural a => a

/-- `allOf`: every branch accepts. -/
def acceptsAll : List JVal → JVal → Bool
  | [], _ => true
  | x :: xs, inst => accepts x inst && acceptsAll xs inst
termination_by structural a => a

/-- `anyOf`: some branch accepts. -/
def acceptsAny : List JVal → JVal → Bool
  | [], _ => false
  | x :: xs, inst => accepts x inst || acceptsAny xs inst
termination_by structural a => a

/-- `oneOf`: the number of accepting branches. -/
def acceptsCount : List JVal → JVal → Nat
  | [], _ => 0
  | x :: xs, inst => (if accepts x inst then 1 else 0) + acceptsCount xs inst
termination_by structural a => a

/-- `properties`: each named property present in the instance must
match its subschema. -/
def acceptsProps : List (String × JVal) → KW → Bool
  | [], _ => true
  | (pk, ps) :: rest, im =>
      (match kwGet pk im with
       | some pv => accepts ps pv
       | none => true) && acceptsProps rest im
termination_by structural a => a

end

/-! Sample schemas and instances used by the theorems. -/

/-- The serialized false schema, `\x7b"not": \x7b\x7d\x7d`. -/
def sFalse : JVal := .obj [("not", .obj [])]

/-- The rational 3/2, a number that is not an integer. -/
def threeHalves : Rat := ⟨3, 2, by decide, by decide⟩

/-- `\x7b"oneOf": [\x7b"const": "foo"\x7d, \x7b"const": "bar"\x7d]\x7d`. -/
def oneOfConstsSchema : JVal :=
  .obj [("oneOf", .arr [.obj [("const", .str "foo")], .obj [("const", .str "bar")]])]

/-- `\x7b"enum": ["foo", "bar"]\x7d`. -/
def enumFooBar : JVal := .obj [("enum", .arr [.str "foo", .str "bar"])]

/-- `\x7b"enum": ["bar", "foo"]\x7d`. -/
def enumBarFoo : JVal := .obj [("enum", .arr [.str "bar", .str "foo"])]

/-- `\x7b"anyOf": [\x7b\x7d]\x7d`, an `anyOf` with one true branch. -/
def anyOfTrueSchema : JVal := .obj [("anyOf", .arr [.obj []])]

/-- `\x7b"type": ["integer", "number"]\x7d`. -/
def intNumberSchema : JVal := .obj [("type", .arr [.str "integer", .str "number"])]

/-- `\x7b"minLength": 10, "maxLength": 5, "type": "string"\x7d`, an
unsatisfiable string schema. -/
def stringBoundsSchema : JVal :=
  .obj [("minLength", .num 10), ("maxLength", .num 5), ("type", .str "string")]

/-- An object schema whose `required` lists `bar`, which is absent
from `properties`. -/
def requiredBarSchema : JVal :=
  .obj [("type", .str "object"),
        ("properties", .obj [("foo", .obj [("type", .str "string")])]),
        ("required", .arr [.str "foo", .str "bar"])]

/-- `requiredBarSchema` after the source drops `bar` from `required`. -/
def requiredFooSchema : JVal :=
  .obj [("type", .str "object"),
        ("properties", .obj [("foo", .obj [("type", .str "string")])]),
        ("required", .arr [.str "foo"])]

/-- An instance with property `foo` only. -/
def fooOnlyInstance : JVal := .obj [("foo", .str "x")]

/-- Claim C1: acceptance preservation — `accepts(S, I) ==
accepts(normalize(S), I)` for every schema `S` and instance `I` — is
violated by the code: `\x7b"anyOf": [\x7b\x7d]\x7d` accepts every
instance (its single branch is the true schema), yet the code's
`_normalize_anyOf_oneOf` discards branches that normalize to the TRUE
schema and turns the now-empty `anyOf` into the false schema, which
accepts nothing. -/
theorem c1_acceptance_preservation_fails_on_anyOf_true :
    normalize 10 anyOfTrueSchema = .ok sFalse
      ∧ accepts anyOfTrueSchema .null = true
      ∧ accepts sFalse .null = false :=
  ⟨rfl, rfl, rfl⟩

/-- Claim C2: idempotence — `normalize(normalize(S)) == normalize(S)`
for every `S` — fails: the `oneOf`-of-consts rewrite emits the
`enum` in branch order (`["foo", "bar"]`) because the enum-sorting
pass has already run, and a second `normalize` then sorts it to
`["bar", "foo"]`, a different value under Python `==`. -/
theorem c2_normalize_not_idempotent_on_oneOf_consts :
    normalize 10 oneOfConstsSchema = .ok enumFooBar
      ∧ normalize 10 enumFooBar = .ok enumBarFoo
      ∧ pyEq enumBarFoo enumFooBar = false :=
  ⟨rfl, rfl, rfl⟩

/-- Claim C3: the claim says the integer/number union drops
`"integer"` only without adding or altering `multipleOf`, but
`_normalize_type_constraints` (lines 126-128) adds `multipleOf: 1.0`
to the merged `"number"` type, and the result rejects the non-integer
3/2 that the input accepts. -/
theorem c3_integer_number_union_adds_multipleOf :
    normalize 10 intNumberSchema
        = .ok (.obj [("type", .str "number"), ("multipleOf", .num 1)])
      ∧ accepts intNumberSchema (.num threeHalves) = true
      ∧ accepts (.obj [("type", .str "number"), ("multipleOf", .num 1)])
          (.num threeHalves) = false :=
  ⟨rfl, rfl, rfl⟩

/-- Claim C4: the claim says false-normalizing branches are dropped
and an `anyOf` with a true branch becomes the true schema; the code
does the opposite: it drops branches that normalize to the TRUE
schema (so `\x7b"anyOf": [\x7b\x7d]\x7d` collapses to the false
schema) and keeps branches that normalize to the false schema. -/
theorem c4_anyOf_branch_handling_inverted :
    normalize 10 anyOfTrueSchema = .ok sFalse
      ∧ normalize 10 (.obj [("anyOf", .arr [sFalse, .obj [("type", .str "string")]])])
          = .ok (.obj [("anyOf", .arr [sFalse, .obj [("type", .str "string")]])]) :=
  ⟨rfl, rfl⟩

/-- Claim C5: the claim says `minLength > maxLength` collapses the
node to the false schema; `_normalize_string_constraints` (lines
196-199) instead deletes `maxLength` whenever `minLength >=
maxLength`, so the unsatisfiable input normalizes to a schema that
accepts every string of length at least 10. -/
theorem c5_contradictory_string_bounds_not_collapsed :
    normalize 10 stringBoundsSchema
        = .ok (.obj [("minLength", .num 10), ("type", .str "string")])
      ∧ accepts stringBoundsSchema (.str "aaaaaaaaaa") = false
      ∧ accepts (.obj [("minLength", .num 10), ("type", .str "string")])
          (.str "aaaaaaaaaa") = true :=
  ⟨rfl, rfl, rfl⟩

/-- Claim C6: the claim says `required` entries absent from
`properties` are NOT dropped; `_normalize_object_constraints` (line
351) drops them, so an instance lacking `bar` is rejected by the
input but accepted by the output. -/
theorem c6_required_entries_absent_from_properties_dropped :
    normalize 10 requiredBarSchema = .ok requiredFooSchema
      ∧ accepts requiredBarSchema fooOnlyInstance = false
      ∧ accepts requiredFooSchema fooOnlyInstance = true :=
  ⟨rfl, rfl, rfl⟩

/-- Claim C7: the claim (and the source's own unit test,
`test_oneOf_enum_conversion`, lines 906-915) says the `oneOf`-of-consts
rewrite yields the enum in canonical sorted order `["bar", "foo"]`;
the code emits the values in branch order `["foo", "bar"]` because
`_normalize_anyOf_oneOf` runs after `_normalize_enum_and_const` in the
pipeline, so the freshly created `enum` is never sorted. -/
theorem c7_oneOf_consts_enum_not_sorted :
    normalize 10 oneOfConstsSchema = .ok enumFooBar
      ∧ pyEq enumFooBar enumBarFoo = false :=
  ⟨rfl, rfl⟩

/-- Claim C8 as stated is false: a non-string `pattern` on a
string-typed schema raises at `result["pattern"].startswith` (line
202), and a non-mapping `properties` on a schema without an excluding
`type` raises at `result["properties"].items()` (line 307); `normalize`
does fail on these malformed keyword shapes. -/
theorem c8_malformed_shapes_can_fail :
    normalize 10 (.obj [("type", .str "string"), ("pattern", .num 5)])
        = .error .typeError
      ∧ normalize 10 (.obj [("properties", .num 5)]) = .error .typeError :=
  ⟨rfl, rfl⟩

/-- Claim C8 amended: graceful degradation is not uniform across
malformed keyword shapes.  Keywords whose pass shape-checks the
runtime value are tolerated even when that pass runs — a non-mapping
`additionalProperties` on an object-typed schema (the `isinstance`
chain at lines 331-340 falls through) and a non-list, non-mapping
`items` on an array-typed schema (lines 232-250) are left untouched,
recursion into them is skipped, and a fully normalized tree is
returned — but for the examples the claim itself names normalize does
fail: a non-mapping `properties` (line 307) and a non-string `pattern`
on a string-typed schema (line 202) raise a runtime type error. -/
theorem c8_malformed_shapes_mixed_tolerance :
    normalize 10 (.obj [("type", .str "object"), ("additionalProperties", .num 5)])
        = .ok (.obj [("type", .str "object"), ("additionalProperties", .num 5)])
      ∧ normalize 10 (.obj [("type", .str "array"), ("items", .num 5)])
          = .ok (.obj [("type", .str "array"), ("items", .num 5)])
      ∧ normalize 10 (.obj [("properties", .num 5)]) = .error .typeError
      ∧ normalize 10 (.obj [("type", .str "string"), ("pattern", .num 5)])
          = .error .typeError :=
  ⟨rfl, rfl, rfl, rfl⟩

/-- Claim C9 as stated is false: for a top-level input that is neither
a boolean nor a mapping the code raises nothing — there is no
`InvalidInputKind` anywhere in the source — and `normalize` returns
the input unchanged (line 47-48). -/
theorem c9_non_mapping_input_returned_unchanged :
    normalize 10 (.str "hello") = .ok (.str "hello") := rfl

/-- Claim C9 amended: `normalize` never fails on a top-level input
that is neither a boolean nor a keyword mapping; it returns that input
unchanged (the early `return schema` at lines 47-48), and no
`InvalidInputKind` error exists in the code. -/
theorem c9_no_invalid_input_kind_error (fuel : Nat) (v : JVal)
    (hb : v.isBool = false) (ho : v.isObj = false) :
    normalize fuel v = .ok v := by
  cases v with
  | null => cases fuel <;> rfl
  | bool b => simp [JVal.isBool] at hb
  | num q => cases fuel <;> rfl
  | str s => cases fuel <;> rfl
  | arr xs => cases fuel <;> rfl
  | obj m => simp [JVal.isObj] at ho

/-- Witness for the amended C9 theorem at the concrete input
`"hello"` with fuel 0. -/
theorem c9_no_invalid_input_kind_error_witness :
    (JVal.str "hello").isBool = false ∧ (JVal.str "hello").isObj = false
      ∧ normalize 0 (.str "hello") = .ok (.str "hello") :=
  ⟨rfl, rfl, c9_no_invalid_input_kind_error 0 (.str "hello") rfl rfl⟩

/-- Claim C10: whenever `normalize` returns on a boolean or mapping
input, the result is a mapping, never a bare boolean; `True` maps to
`\x7b\x7d` and `False` to `\x7b"not": \x7b\x7d\x7d` (lines 41-45), and
on mapping inputs every pass yields a mapping. -/
theorem c10_result_is_always_a_mapping (fuel : Nat) (v r : JVal)
    (h : v.isBool = true ∨ v.isObj = true)
    (hr : normalize fuel v = .ok r) :
    r.isObj = true
      ∧ normalize fuel (.bool true) = .ok (.obj [])
      ∧ normalize fuel (.bool false) = .ok sFalse := by
  refine ⟨?_, by cases fuel <;> rfl, by cases fuel <;> rfl⟩
  cases v with
  | bool b =>
      cases fuel with
      | zero =>
          cases b with
          | true =>
              have hr' : Except.ok (JVal.obj []) = Except.ok r := hr
              cases hr'
              rfl
          | false =>
              have hr' : Except.ok sFalse = Except.ok r := hr
              cases hr'
              rfl
      | succ f =>
          cases b with
          | true =>
              have hr' : Except.ok (JVal.obj []) = Except.ok r := hr
              cases hr'
              rfl
          | false =>
              have hr' : Except.ok sFalse = Except.ok r := hr
              cases hr'
              rfl
  | obj m =>
      cases fuel with
      | zero => exact absurd hr (by simp [normalize])
      | succ f =>
          have hr' : (normalizePasses (fun s => normalize f s) m).map JVal.obj
              = Except.ok r := hr
          cases hE : normalizePasses (fun s => normalize f s) m with
          | error e => rw [hE] at hr'; simp [Except.map] at hr'
          | ok k =>
              rw [hE] at hr'
              simp only [Except.map] at hr'
              cases hr'
              rfl
  | null => rcases h with h | h <;> simp [JVal.isBool, JVal.isObj] at h
  | num q => rcases h with h | h <;> simp [JVal.isBool, JVal.isObj] at h
  | str s => rcases h with h | h <;> simp [JVal.isBool, JVal.isObj] at h
  | arr xs => rcases h with h | h <;> simp [JVal.isBool, JVal.isObj] at h

/-- Witness for C10 at the concrete input `\x7b\x7d` with fuel 1. -/
theorem c10_result_is_always_a_mapping_witness :
    ((JVal.obj []).isBool = true ∨ (JVal.obj []).isObj = true)
      ∧ ((JVal.obj []).isObj = true
          ∧ normalize 1 (.bool true) = .ok (.obj [])
          ∧ normalize 1 (.bool false) = .ok sFalse) :=
  ⟨Or.inr rfl, c10_result_is_always_a_mapping 1 (.obj []) (.obj []) (Or.inr rfl) rfl⟩

end Normalisation
